import Mathlib

/-!
Verification of the hexapodsearcher backend (app.py): a shallow embedding of
the observation-diversification loop, the taxonomic-overlap detector, the
taxon-name validator, the quiz-question picker and the quiz save routine,
together with theorems settling the specified properties.
-/

namespace HexapodSearcher

/-- Accumulator loop for whitespace splitting: cur holds the reversed
chars of the token being read. -/
def splitWsAux : List Char → List Char → List String
  | [], cur => if cur = [] then [] else [String.mk cur.reverse]
  | c :: cs, cur =>
    if c.isWhitespace then
      (if cur = [] then [] else [String.mk cur.reverse]) ++ splitWsAux cs []
    else splitWsAux cs (c :: cur)

/-- Python str.split() with no argument: split on whitespace runs,
discarding empty pieces. -/
def pySplitWs (s : String) : List String := splitWsAux s.data []

/-- Embedding of line 80 of app.py: the genus is the first token of the
whitespace split of species_name when that name differs from Unknown, and
the literal Unknown otherwise. The index-0 access raises IndexError when
the split is empty, modelled by the error branch. -/
def genusOf (species_name : String) : Except String String :=
  if species_name ≠ "Unknown" then
    match pySplitWs species_name with
    | [] => Except.error "IndexError: list index out of range"
    | g :: _ => Except.ok g
  else Except.ok "Unknown"

/-- The genus token of a scientific name: its first whitespace-delimited
token (the default is never exercised on names the code accepts). -/
def genusTok (s : String) : String :=
  (pySplitWs s).headD "Unknown"

/-- Python substring membership test (the in operator), on char lists. -/
def containsL (pat : List Char) : List Char → Bool
  | [] => pat.isPrefixOf []
  | c :: cs => pat.isPrefixOf (c :: cs) || containsL pat cs

/-- Python substring membership test on strings. -/
def containsS (s pat : String) : Bool := containsL pat.data s.data

/-- Python str.replace on char lists, with a fuel argument for structural
recursion: each step consumes one fuel and at least one char, so fuel
equal to the length of the list never runs out. -/
def replaceFuel (pat rep : List Char) : Nat → List Char → List Char
  | _, [] => []
  | 0, s => s
  | Nat.succ fuel, c :: cs =>
    if pat ≠ [] ∧ pat.isPrefixOf (c :: cs) then
      rep ++ replaceFuel pat rep fuel (cs.drop (pat.length - 1))
    else
      c :: replaceFuel pat rep fuel cs

/-- Python str.replace: replace every non-overlapping occurrence of pat,
left to right, on char lists. -/
def replaceL (pat rep s : List Char) : List Char :=
  replaceFuel pat rep s.length s

/-- Python str.replace on strings. -/
def pyReplace (s pat rep : String) : String :=
  String.mk (replaceL pat.data rep.data s.data)

/-- Python truthiness filter for an optional string: a missing value and the
empty string are both falsy. -/
def truthyStr : Option String → Option String
  | some s => if s = "" then none else some s
  | none => none

/-- Python str.rstrip() on char lists: drop trailing whitespace. -/
def rstripL (s : List Char) : List Char :=
  (s.reverse.dropWhile Char.isWhitespace).reverse

/-- Python str.strip() on char lists: drop leading and trailing whitespace. -/
def stripL (s : List Char) : List Char :=
  rstripL (s.dropWhile Char.isWhitespace)

/-- Python str.strip() on strings. -/
def pyStrip (s : String) : String := String.mk (stripL s.data)

/-- Accumulator loop for single-character splitting, keeping empty pieces
as Python str.split(sep) does. -/
def splitCharAux (sep : Char) : List Char → List Char → List String
  | [], cur => [String.mk cur.reverse]
  | c :: cs, cur =>
    if c = sep then String.mk cur.reverse :: splitCharAux sep cs []
    else splitCharAux sep cs (c :: cur)

/-- Python str.split(sep) with a one-character separator. -/
def pySplitChar (sep : Char) (s : String) : List String := splitCharAux sep s.data []

/-- Python str.lower(), charwise. -/
def pyLower (s : String) : String := String.mk (s.data.map Char.toLower)

/-- A photo sub-record of a fetched observation, with the optional url
fields the code reads (a missing field is none). -/
structure Photo where
  url : Option String
  large_url : Option String
  medium_url : Option String
  original_url : Option String
  attribution : Option String
deriving DecidableEq

/-- The taxon sub-record of a fetched observation. -/
structure ObsTaxon where
  name : Option String
  preferred_common_name : Option String
deriving DecidableEq

/-- One raw observation of the fetched batch, an element of the results
array of the observation response. -/
structure RawObs where
  id : Nat
  photos : List Photo
  taxon : Option ObsTaxon
deriving DecidableEq

/-- The photo record the loop builds (lines 105-110 of app.py). -/
structure PhotoInfo where
  url : String
  medium_url : String
  square_url : String
  attribution : String
deriving DecidableEq

/-- The observation record the loop builds (lines 112-118 of app.py). -/
structure ObservationInfo where
  id : Nat
  scientific_name : String
  common_name : String
  photos : List PhotoInfo
  url : String
deriving DecidableEq

/-- Embedding of the bracket access to the url field of a photo record:
KeyError when the field is missing. -/
def pyGetUrl (photo : Photo) : Except String String :=
  match photo.url with
  | some u => Except.ok u
  | none => Except.error "KeyError: url"

/-- Embedding of a Python or-chain of photo.get calls ending in the
bracket access to the url field: the first truthy value wins, else the
raw field, raising when it is missing. -/
def fallbackChain (opts : List (Option String)) (photo : Photo) : Except String String :=
  match opts with
  | [] => pyGetUrl photo
  | o :: rest =>
    match truthyStr o with
    | some s => Except.ok s
    | none => fallbackChain rest photo

/-- Embedding of lines 92-110 of app.py: build the PhotoInfo for one photo,
substituting the square filename segment for large/medium when present,
else falling back through the explicit url fields. -/
def buildPhotoInfo (photo : Photo) : Except String PhotoInfo :=
  let base_url := photo.url.getD ""
  if containsS base_url "square.jpeg" || containsS base_url "square.jpg" then
    Except.ok
      { url := pyReplace (pyReplace base_url "square.jpeg" "large.jpeg") "square.jpg" "large.jpg"
        medium_url := pyReplace (pyReplace base_url "square.jpeg" "medium.jpeg") "square.jpg" "medium.jpg"
        square_url := base_url
        attribution := photo.attribution.getD "Unknown" }
  else
    match fallbackChain [photo.large_url, photo.medium_url, photo.original_url] photo with
    | Except.error e => Except.error e
    | Except.ok large_url =>
      match fallbackChain [photo.medium_url, photo.large_url] photo with
      | Except.error e => Except.error e
      | Except.ok medium_url =>
        Except.ok
          { url := large_url
            medium_url := medium_url
            square_url := base_url
            attribution := photo.attribution.getD "Unknown" }

/-- Embedding of the photo_info accumulation loop (line 91 of app.py),
aborting at the first failing photo. -/
def buildPhotos : List Photo → Except String (List PhotoInfo)
  | [] => Except.ok []
  | p :: ps =>
    match buildPhotoInfo p, buildPhotos ps with
    | Except.ok pi, Except.ok pis => Except.ok (pi :: pis)
    | Except.error e, _ => Except.error e
    | Except.ok _, Except.error e => Except.error e

/-- The species name the loop reads for a raw observation: the name field
of its taxon record, defaulting to Unknown. -/
def obsSpeciesName (o : RawObs) : String :=
  match o.taxon with
  | some t => t.name.getD "Unknown"
  | none => "Unknown"

/-- The genus token of a raw observation. -/
def obsGenus (o : RawObs) : String := genusTok (obsSpeciesName o)

/-- Whether an Except value is the ok branch. -/
def exceptOk {ε α : Type} : Except ε α → Bool
  | Except.ok _ => true
  | Except.error _ => false

/-- A raw observation is an eligible candidate when it has photos, taxon
info, and a resolvable species name (the genus extraction succeeds). -/
def eligibleB (o : RawObs) : Bool :=
  o.taxon.isSome && !o.photos.isEmpty && exceptOk (genusOf (obsSpeciesName o))

/-- The set of genus tokens occurring among eligible candidates of a batch. -/
def genSet (batch : List RawObs) : Finset String :=
  ((batch.filter eligibleB).map obsGenus).toFinset

/-- The decision the loop body takes for one candidate observation. -/
inductive CandAction where
  | skip : CandAction
  | fail : String → CandAction
  | accept : String → String → ObservationInfo → CandAction

/-- Embedding of the loop body of lines 75-118 of app.py: given the seen
sets and the current number of accepted observations, either skip the
candidate, fail with an exception, or accept it, reporting its species
name, genus and built record. -/
def classify (limit : Nat) (seen_species seen_genera : List String)
    (numAccepted : Nat) (o : RawObs) : CandAction :=
  match o.taxon with
  | none => CandAction.skip
  | some taxon =>
    if o.photos.isEmpty then CandAction.skip
    else
      let species_name := taxon.name.getD "Unknown"
      match genusOf species_name with
      | Except.error e => CandAction.fail e
      | Except.ok genus =>
        if species_name ∈ seen_species then CandAction.skip
        else if genus ∈ seen_genera ∧ numAccepted < limit then CandAction.skip
        else
          match buildPhotos (o.photos.take 1) with
          | Except.error e => CandAction.fail e
          | Except.ok photo_info =>
            CandAction.accept species_name genus
              { id := o.id
                scientific_name := species_name
                common_name := taxon.preferred_common_name.getD "Unknown"
                photos := photo_info
                url := "https://www.inaturalist.org/observations/" ++ toString o.id }

/-- Embedding of the diversification loop of lines 74-126 of app.py:
iterate the batch in order, skipping seen species, skipping seen genera
while the result is not yet full, appending accepted records, and breaking
as soon as limit records have been collected. -/
def processBatch (limit : Nat) : List RawObs → List ObservationInfo →
    List String → List String → Except String (List ObservationInfo)
  | [], observations, _, _ => Except.ok observations
  | o :: rest, observations, seen_species, seen_genera =>
    match classify limit seen_species seen_genera observations.length o with
    | CandAction.skip => processBatch limit rest observations seen_species seen_genera
    | CandAction.fail e => Except.error e
    | CandAction.accept species_name genus info =>
      let observations2 := observations ++ [info]
      if limit ≤ observations2.length then Except.ok observations2
      else processBatch limit rest observations2
        (species_name :: seen_species) (genus :: seen_genera)

/-- Embedding of search_hexapod_taxon_observations restricted to its pure
core: the observations list computed from the fetched batch (the HTTP
fetches and the surrounding taxon resolution are external collaborators;
an uncaught exception inside the loop is the error branch, which the code
converts to an error payload). -/
def search_hexapod_taxon_observations (batch : List RawObs) (limit : Nat) :
    Except String (List ObservationInfo) :=
  processBatch limit batch [] [] []

/-- One candidate returned by the external taxonomy search for validation. -/
structure TaxonCandidate where
  name : String
  id : Nat
  rank : String
  ancestry : Option String
deriving DecidableEq

/-- The validation payload built by validate_taxon_name. -/
structure ValidationResult where
  valid : Bool
  taxon_name : Option String
  taxon_id : Option Nat
  rank : Option String
  ancestry : Option String
deriving DecidableEq

/-- Embedding of lines 207-229 of app.py: on an empty candidate list report
invalid; otherwise take the first candidate whose lowercased scientific
name equals the lowercased query, falling back to the first candidate. -/
def validate_taxon_name (taxon_name : String) (results : List TaxonCandidate) :
    ValidationResult :=
  match results with
  | [] => { valid := false, taxon_name := none, taxon_id := none, rank := none, ancestry := none }
  | first :: _ =>
    let exact_match :=
      (results.find? (fun r => pyLower r.name == pyLower taxon_name)).getD first
    { valid := true
      taxon_name := some exact_match.name
      taxon_id := some exact_match.id
      rank := some exact_match.rank
      ancestry := some (exact_match.ancestry.getD "") }

/-- A taxon as posted to the overlap endpoint; a missing JSON field is
none (the code reads every field with .get and a default). -/
structure InTaxon where
  taxon_id : Option String
  ancestry : Option String
  rank : Option String
  taxon_name : Option String
deriving DecidableEq

/-- The overlap verdict payload. -/
structure OverlapVerdict where
  overlap : Bool
  overlapping_taxon : Option String
  reason : Option String
deriving DecidableEq

/-- The segments of an ancestry path string as the code computes them:
empty set for a falsy (empty) string, else split on the slash. -/
def pathSegs (ancestry : String) : List String :=
  if ancestry = "" then [] else pySplitChar '/' ancestry

/-- The ancestry-plus-self set of lines 256-257 and 264-265 of app.py. -/
def ancestrySetOf (ancestry id : String) : List String :=
  id :: pathSegs ancestry

/-- Embedding of the loop of lines 259-280 of app.py: test the candidate
against each existing taxon in order, declaring overlap at the first hit. -/
def checkAgainst (new_id : String) (new_ancestry_set : List String)
    (new_rank new_name : String) : List InTaxon → OverlapVerdict
  | [] => { overlap := false, overlapping_taxon := none, reason := none }
  | t :: rest =>
    let existing_id := t.taxon_id.getD ""
    let existing_ancestry := t.ancestry.getD ""
    let existing_name := t.taxon_name.getD ""
    let existing_ancestry_set := ancestrySetOf existing_ancestry existing_id
    if new_id ∈ existing_ancestry_set then
      { overlap := true
        overlapping_taxon := some existing_name
        reason := some (new_name ++ " (" ++ new_rank ++ ") is a parent/ancestor of " ++ existing_name) }
    else if existing_id ∈ new_ancestry_set then
      { overlap := true
        overlapping_taxon := some existing_name
        reason := some (existing_name ++ " is a parent/ancestor of " ++ new_name ++ " (" ++ new_rank ++ ")") }
    else checkAgainst new_id new_ancestry_set new_rank new_name rest

/-- Embedding of check_taxonomic_overlap (lines 245-282 of app.py), on an
already-parsed request body: every missing field defaults to the empty
string, as the .get calls with string defaults in the code do. -/
def check_taxonomic_overlap (new_taxon : InTaxon) (existing_taxa : List InTaxon) :
    OverlapVerdict :=
  let new_id := new_taxon.taxon_id.getD ""
  let new_ancestry := new_taxon.ancestry.getD ""
  let new_rank := new_taxon.rank.getD ""
  let new_name := new_taxon.taxon_name.getD ""
  checkAgainst new_id (ancestrySetOf new_ancestry new_id) new_rank new_name existing_taxa

/-- The persisted record of one saved quiz (lines 317-322 of app.py). -/
structure QuizData where
  name : String
  families : List String
  created_at : String
  family_count : Nat
deriving DecidableEq

/-- The response of the save endpoint: either an error payload or a
success payload with a message. -/
structure SaveResponse where
  response_error : Option String
  success : Bool
deriving DecidableEq

/-- The flat record store, as the association of filenames to records. -/
abbrev Storage := List (String × QuizData)

/-- Embedding of line 325 of app.py: keep only alphanumerics, spaces,
hyphens and underscores of the quiz name, then strip trailing whitespace. -/
def safe_filename (quiz_name : String) : String :=
  String.mk (rstripL (quiz_name.data.filter
    (fun c => c.isAlphanum || c = ' ' || c = '-' || c = '_')))

/-- Writing a file: any previous record under the same name is replaced. -/
def storeSet (store : Storage) (key : String) (v : QuizData) : Storage :=
  (store.filter (fun kv => kv.1 ≠ key)) ++ [(key, v)]

/-- Embedding of save_quiz_setup (lines 298-334 of app.py) on a parsed
request body: validate the stripped name and the family count, then write
the record under the sanitized filename (created_at is the wall-clock
string, passed in as a parameter). -/
def save_quiz_setup (store : Storage) (data_name : Option String)
    (data_families : Option (List String)) (now : String) :
    SaveResponse × Storage :=
  let quiz_name := pyStrip (data_name.getD "")
  let families := data_families.getD []
  if quiz_name = "" then
    ({ response_error := some "Quiz name is required", success := false }, store)
  else if families.length < 2 then
    ({ response_error := some "At least 2 families are required", success := false }, store)
  else
    let quiz_data : QuizData :=
      { name := quiz_name, families := families, created_at := now,
        family_count := families.length }
    let filename := "saved_quizzes/" ++ safe_filename quiz_name ++ ".json"
    ({ response_error := none, success := true }, storeSet store filename quiz_data)

/-- The storage key a save request with the given raw name writes to. -/
def quizKey (raw_name : String) : String :=
  "saved_quizzes/" ++ safe_filename (pyStrip raw_name) ++ ".json"

/-- The question payload built by get_quiz_question (lines 427-432). -/
structure QuizQuestion where
  correct_answer : String
  image_url : String
  scientific_name : String
  observation_url : String
deriving DecidableEq

/-- Embedding of get_quiz_question (lines 408-432 of app.py) on a
non-empty family list: the random choice is the element at the given
index, and the observation fetch for the chosen family is represented by
its fetched batch, diversified with limit 1; a missing observation or an
error yields the error payload, and the photos[0] subscript on an
accepted record with no photos raises. -/
def get_quiz_question (families : List String) (choice : Fin families.length)
    (batch : List RawObs) : Except String QuizQuestion :=
  let correct_family := families.get choice
  match search_hexapod_taxon_observations batch 1 with
  | Except.error _ => Except.error ("Could not get image for " ++ correct_family)
  | Except.ok [] => Except.error ("Could not get image for " ++ correct_family)
  | Except.ok (observation :: _) =>
    match observation.photos with
    | [] => Except.error "IndexError: list index out of range"
    | p :: _ =>
      Except.ok
        { correct_answer := correct_family
          image_url := p.url
          scientific_name := observation.scientific_name
          observation_url := observation.url }

/-- A sample fetched photo with a plain (non-square) url, for concrete
evaluations. -/
def samplePhoto : Photo :=
  { url := some "u", large_url := none, medium_url := none,
    original_url := none, attribution := none }

/-- A sample fetched observation with one photo and the given name. -/
def mkObs (i : Nat) (nm : String) : RawObs :=
  { id := i, photos := [samplePhoto], taxon := some { name := some nm, preferred_common_name := none } }

/-- The record the loop builds for a sample observation. -/
def mkInfo (i : Nat) (nm : String) : ObservationInfo :=
  { id := i, scientific_name := nm, common_name := "Unknown",
    photos := [{ url := "u", medium_url := "u", square_url := "u", attribution := "Unknown" }],
    url := "https://www.inaturalist.org/observations/" ++ toString i }

deriving instance DecidableEq for Except

/-! Helper lemmas. -/

theorem mem_of_mem_dropWhile {p : Char → Bool} {x : Char} :
    ∀ {l : List Char}, x ∈ l.dropWhile p → x ∈ l := by
  intro l
  induction l with
  | nil => simp [List.dropWhile]
  | cons c cs ih =>
    intro hx
    rw [List.dropWhile_cons] at hx
    by_cases hc : p c = true
    · simp only [hc, if_true] at hx
      exact List.mem_cons_of_mem c (ih hx)
    · simp only [hc, if_false] at hx
      exact hx

theorem dropWhile_dropWhile_self {p : Char → Bool} :
    ∀ l : List Char, (l.dropWhile p).dropWhile p = l.dropWhile p := by
  intro l
  induction l with
  | nil => simp [List.dropWhile]
  | cons c cs ih =>
    rw [List.dropWhile_cons]
    cases hc : p c with
    | true => simp only [if_true]; exact ih
    | false => simp only [Bool.false_eq_true, if_false, List.dropWhile_cons, hc]

theorem mem_of_mem_rstripL {x : Char} {l : List Char} (hx : x ∈ rstripL l) : x ∈ l := by
  unfold rstripL at hx
  rw [List.mem_reverse] at hx
  have := mem_of_mem_dropWhile hx
  rwa [List.mem_reverse] at this

theorem rstripL_idem (l : List Char) : rstripL (rstripL l) = rstripL l := by
  unfold rstripL
  rw [List.reverse_reverse, dropWhile_dropWhile_self]

theorem checkAgainst_cons_overlap (new_id : String) (new_set : List String)
    (nr nn : String) (t : InTaxon) (rest : List InTaxon)
    (h : new_id ∈ ancestrySetOf (t.ancestry.getD "") (t.taxon_id.getD "") ∨
      t.taxon_id.getD "" ∈ new_set) :
    (checkAgainst new_id new_set nr nn (t :: rest)).overlap = true := by
  unfold checkAgainst
  by_cases h1 : new_id ∈ ancestrySetOf (t.ancestry.getD "") (t.taxon_id.getD "")
  · simp [h1]
  · have h2 : t.taxon_id.getD "" ∈ new_set := h.resolve_left h1
    simp [h1, h2]

/-- Claim C5: when one taxon is an ancestor of the other (its id occurs in
the ancestry path of the other, both given with id and ancestry), the
overlap check reports overlap = true with either taxon as the candidate. -/
theorem check_overlap_direction_agnostic
    (aid aanc arank aname bid banc brank bname : String)
    (h : aid ∈ pathSegs banc ∨ bid ∈ pathSegs aanc) :
    (check_taxonomic_overlap
        { taxon_id := some aid, ancestry := some aanc, rank := some arank, taxon_name := some aname }
        [{ taxon_id := some bid, ancestry := some banc, rank := some brank, taxon_name := some bname }]).overlap = true ∧
    (check_taxonomic_overlap
        { taxon_id := some bid, ancestry := some banc, rank := some brank, taxon_name := some bname }
        [{ taxon_id := some aid, ancestry := some aanc, rank := some arank, taxon_name := some aname }]).overlap = true := by
  constructor
  · unfold check_taxonomic_overlap
    apply checkAgainst_cons_overlap
    simp only [Option.getD_some, ancestrySetOf, List.mem_cons]
    rcases h with h | h
    · exact Or.inl (Or.inr h)
    · exact Or.inr (Or.inr h)
  · unfold check_taxonomic_overlap
    apply checkAgainst_cons_overlap
    simp only [Option.getD_some, ancestrySetOf, List.mem_cons]
    rcases h with h | h
    · exact Or.inr (Or.inr h)
    · exact Or.inl (Or.inr h)

/-- Witness for C5 at the concrete pair of the spec: Vespidae-like ids
47158 (ancestry 1/47120) and 47120 (ancestry 1), in both directions. -/
theorem check_overlap_direction_agnostic_witness :
    ("47158" ∈ pathSegs "1" ∨ "47120" ∈ pathSegs "1/47120") ∧
    ((check_taxonomic_overlap
        { taxon_id := some "47158", ancestry := some "1/47120", rank := some "family", taxon_name := some "A" }
        [{ taxon_id := some "47120", ancestry := some "1", rank := some "order", taxon_name := some "B" }]).overlap = true ∧
      (check_taxonomic_overlap
        { taxon_id := some "47120", ancestry := some "1", rank := some "order", taxon_name := some "B" }
        [{ taxon_id := some "47158", ancestry := some "1/47120", rank := some "family", taxon_name := some "A" }]).overlap = true) :=
  ⟨by decide,
    check_overlap_direction_agnostic "47158" "1/47120" "family" "A" "47120" "1" "order" "B" (by decide)⟩

/-- Counterexample to claim C3: a candidate missing both its id and its
ancestry is checked with empty-string defaults and passes as no overlap
against a well-formed existing taxon, instead of the claimed
conservative overlaps = true verdict. -/
theorem check_overlap_malformed_counterexample :
    (check_taxonomic_overlap
        { taxon_id := none, ancestry := none, rank := none, taxon_name := none }
        [{ taxon_id := some "47158", ancestry := some "1/47120", rank := some "family", taxon_name := some "X" }]).overlap = false := by
  decide

/-- Claim C3 as amended: missing id/ancestry fields are not reported; they
default to empty strings and flow through the ordinary membership check,
so a candidate missing id and ancestry yields a no-overlap verdict
whenever every existing taxon has a non-empty id and no empty ancestry
segment. -/
theorem check_overlap_malformed_defaults (existing : List InTaxon)
    (h : ∀ t ∈ existing, ¬ t.taxon_id.getD "" = "" ∧ ¬ "" ∈ pathSegs (t.ancestry.getD "")) :
    check_taxonomic_overlap
        { taxon_id := none, ancestry := none, rank := none, taxon_name := none }
        existing =
      { overlap := false, overlapping_taxon := none, reason := none } := by
  unfold check_taxonomic_overlap
  simp only [Option.getD_none]
  have hset : ancestrySetOf "" "" = [""] := by decide
  rw [hset]
  induction existing with
  | nil => rfl
  | cons t rest ih =>
    obtain ⟨hid, hanc⟩ := h t (List.mem_cons_self t rest)
    unfold checkAgainst
    have h1 : ¬ "" ∈ ancestrySetOf (t.ancestry.getD "") (t.taxon_id.getD "") := by
      simp only [ancestrySetOf, List.mem_cons]
      intro hc
      rcases hc with hc | hc
      · exact hid hc.symm
      · exact hanc hc
    have h2 : ¬ t.taxon_id.getD "" ∈ [""] := by
      simp only [List.mem_singleton]
      exact hid
    simp only [h1, if_false, h2]
    exact ih (fun u hu => h u (List.mem_cons_of_mem t hu))

/-- Witness for the amended C3 at a concrete well-formed existing list. -/
theorem check_overlap_malformed_defaults_witness :
    (∀ t ∈ [({ taxon_id := some "47158", ancestry := some "1/47120", rank := some "family", taxon_name := some "X" } : InTaxon)],
      ¬ t.taxon_id.getD "" = "" ∧ ¬ "" ∈ pathSegs (t.ancestry.getD "")) ∧
    check_taxonomic_overlap
        { taxon_id := none, ancestry := none, rank := none, taxon_name := none }
        [{ taxon_id := some "47158", ancestry := some "1/47120", rank := some "family", taxon_name := some "X" }] =
      { overlap := false, overlapping_taxon := none, reason := none } :=
  ⟨by decide, check_overlap_malformed_defaults _ (by decide)⟩

/-- Claim C1 evaluated at its failing input: with limit 2 and a batch of
two distinct-species same-genus candidates with photos, the loop returns
only one observation; the claimed same-genus fill-in to limit never
happens, because the iteration breaks at limit and so the result is
never full while candidates are being examined. -/
theorem search_same_genus_never_fills :
    Except.map List.length
        (search_hexapod_taxon_observations
          [mkObs 1 "Apis mellifera", mkObs 2 "Apis cerana"] 2) =
      Except.ok 1 := by
  decide

theorem find?_append_first {α : Type} (p : α → Bool) (c : α) (post : List α) :
    ∀ pre : List α, (∀ d ∈ pre, ¬ p d = true) → p c = true →
      List.find? p (pre ++ c :: post) = some c := by
  intro pre
  induction pre with
  | nil =>
    intro _ hc
    simpa using List.find?_cons_of_pos post hc
  | cons d ds ih =>
    intro hpre hc
    rw [List.cons_append, List.find?_cons_of_neg _ (hpre d (List.mem_cons_self d ds))]
    exact ih (fun e he => hpre e (List.mem_cons_of_mem d he)) hc

/-- Claim C6: on a non-empty candidate list, the validator returns the
first candidate whose scientific name equals the query case-insensitively
when one exists, and otherwise the first candidate of the list. -/
theorem validate_taxon_name_selection (q : String) (first : TaxonCandidate)
    (rest : List TaxonCandidate) :
    ((∀ c ∈ first :: rest, ¬ pyLower c.name = pyLower q) →
      validate_taxon_name q (first :: rest) =
        { valid := true, taxon_name := some first.name, taxon_id := some first.id,
          rank := some first.rank, ancestry := some (first.ancestry.getD "") }) ∧
    (∀ pre c post, first :: rest = pre ++ c :: post →
      pyLower c.name = pyLower q →
      (∀ d ∈ pre, ¬ pyLower d.name = pyLower q) →
      validate_taxon_name q (first :: rest) =
        { valid := true, taxon_name := some c.name, taxon_id := some c.id,
          rank := some c.rank, ancestry := some (c.ancestry.getD "") }) := by
  constructor
  · intro hnone
    have hfind : List.find? (fun r => pyLower r.name == pyLower q) (first :: rest) = none := by
      rw [List.find?_eq_none]
      intro x hx
      simpa using hnone x hx
    simp only [validate_taxon_name, hfind, Option.getD_none]
  · intro pre c post heq hc hpre
    have hfind : List.find? (fun r => pyLower r.name == pyLower q) (first :: rest) = some c := by
      rw [heq]
      apply find?_append_first
      · intro d hd
        simpa using hpre d hd
      · simpa using hc
    simp only [validate_taxon_name, hfind, Option.getD_some]

/-- Witness for C6: with query apis, the exact case-insensitive match in
second position is preferred over the first candidate. -/
theorem validate_taxon_name_selection_witness :
    (pyLower (TaxonCandidate.name ⟨"Apis", 2, "genus", none⟩) = pyLower "apis") ∧
    validate_taxon_name "apis" [⟨"Bombus", 1, "genus", none⟩, ⟨"Apis", 2, "genus", none⟩] =
      { valid := true, taxon_name := some "Apis", taxon_id := some 2,
        rank := some "genus", ancestry := some "" } :=
  ⟨by decide,
    (validate_taxon_name_selection "apis" ⟨"Bombus", 1, "genus", none⟩
        [⟨"Apis", 2, "genus", none⟩]).2
      [⟨"Bombus", 1, "genus", none⟩] ⟨"Apis", 2, "genus", none⟩ [] rfl
      (by decide) (by decide)⟩

/-- Claim C8: a save request with an empty or whitespace-only name, or
fewer than 2 families, is rejected with a validation error and leaves the
store exactly as it was. -/
theorem save_quiz_setup_rejects_invalid (store : Storage) (data_name : Option String)
    (data_families : Option (List String)) (now : String)
    (h : pyStrip (data_name.getD "") = "" ∨ (data_families.getD []).length < 2) :
    (save_quiz_setup store data_name data_families now).1.success = false ∧
    ((save_quiz_setup store data_name data_families now).1.response_error).isSome = true ∧
    (save_quiz_setup store data_name data_families now).2 = store := by
  unfold save_quiz_setup
  by_cases hn : pyStrip (data_name.getD "") = ""
  · simp [hn]
  · have hf : (data_families.getD []).length < 2 := h.resolve_left hn
    simp [hn, hf]

/-- Witness for C8: a whitespace-only name is rejected without touching a
non-trivial store. -/
theorem save_quiz_setup_rejects_invalid_witness :
    (pyStrip ((some "  ").getD "") = "" ∨ ((some ["Formicidae"]).getD ([] : List String)).length < 2) ∧
    ((save_quiz_setup [("k", { name := "old", families := ["a", "b"], created_at := "t0", family_count := 2 })]
        (some "  ") (some ["Formicidae"]) "t").1.success = false ∧
      ((save_quiz_setup [("k", { name := "old", families := ["a", "b"], created_at := "t0", family_count := 2 })]
        (some "  ") (some ["Formicidae"]) "t").1.response_error).isSome = true ∧
      (save_quiz_setup [("k", { name := "old", families := ["a", "b"], created_at := "t0", family_count := 2 })]
        (some "  ") (some ["Formicidae"]) "t").2 =
        [("k", { name := "old", families := ["a", "b"], created_at := "t0", family_count := 2 })]) :=
  ⟨by decide,
    save_quiz_setup_rejects_invalid
      [("k", { name := "old", families := ["a", "b"], created_at := "t0", family_count := 2 })]
      (some "  ") (some ["Formicidae"]) "t" (by decide)⟩

theorem filter_storeSet (store : Storage) (key : String) (v : QuizData) :
    (storeSet store key v).filter (fun kv => kv.1 = key) = [(key, v)] := by
  unfold storeSet
  rw [List.filter_append]
  have h1 : (store.filter (fun kv => kv.1 ≠ key)).filter (fun kv => kv.1 = key) = [] := by
    rw [List.filter_filter]
    apply List.filter_eq_nil_iff.mpr
    intro kv _
    by_cases hk : kv.1 = key <;> simp [hk]
  rw [h1]
  simp

/-- Claim C9: the storage key derived from a quiz name holds only
alphanumerics, spaces, hyphens and underscores, with trailing whitespace
trimmed; and two valid saves whose names sanitize to the same key write
the same record, the second silently overwriting the first. -/
theorem safe_filename_sanitizes_and_overwrites (n1 n2 : String)
    (f1 f2 : List String) (t1 t2 : String) (store : Storage)
    (hn1 : ¬ pyStrip n1 = "") (hn2 : ¬ pyStrip n2 = "")
    (hf1 : 2 ≤ f1.length) (hf2 : 2 ≤ f2.length)
    (hkey : safe_filename (pyStrip n1) = safe_filename (pyStrip n2)) :
    (∀ nm : String,
      (∀ c ∈ (safe_filename nm).data, (c.isAlphanum || c = ' ' || c = '-' || c = '_') = true) ∧
      rstripL (safe_filename nm).data = (safe_filename nm).data) ∧
    ((save_quiz_setup ((save_quiz_setup store (some n1) (some f1) t1).2)
        (some n2) (some f2) t2).2).filter (fun kv => kv.1 = quizKey n1) =
      [(quizKey n1,
        { name := pyStrip n2, families := f2, created_at := t2, family_count := f2.length })] := by
  constructor
  · intro nm
    constructor
    · intro c hc
      have hmem : c ∈ nm.data.filter (fun c => c.isAlphanum || c = ' ' || c = '-' || c = '_') :=
        mem_of_mem_rstripL hc
      exact (List.mem_filter.mp hmem).2
    · exact rstripL_idem _
  · have hkeys : quizKey n1 = quizKey n2 := by
      unfold quizKey
      rw [hkey]
    have hs1 : (save_quiz_setup store (some n1) (some f1) t1).2 =
        storeSet store (quizKey n1)
          { name := pyStrip n1, families := f1, created_at := t1, family_count := f1.length } := by
      unfold save_quiz_setup quizKey
      simp only [Option.getD_some]
      rw [if_neg hn1, if_neg (by omega)]
    have hs2 : ∀ s : Storage, (save_quiz_setup s (some n2) (some f2) t2).2 =
        storeSet s (quizKey n2)
          { name := pyStrip n2, families := f2, created_at := t2, family_count := f2.length } := by
      intro s
      unfold save_quiz_setup quizKey
      simp only [Option.getD_some]
      rw [if_neg hn2, if_neg (by omega)]
    rw [hs1, hs2, hkeys, filter_storeSet]

/-- Witness for C9 at the concrete quiz name Ants & Bees!: the ampersand
and exclamation mark are dropped and the second save overwrites the
first. -/
theorem safe_filename_sanitizes_and_overwrites_witness :
    (¬ pyStrip "Ants & Bees!" = "") ∧ 2 ≤ (["Formicidae", "Apidae"] : List String).length ∧
    safe_filename (pyStrip "Ants & Bees!") = "Ants  Bees" ∧
    ((save_quiz_setup ((save_quiz_setup [] (some "Ants & Bees!") (some ["Formicidae", "Apidae"]) "t1").2)
        (some "Ants & Bees!") (some ["Formicidae", "Apidae"]) "t2").2).filter
        (fun kv => kv.1 = quizKey "Ants & Bees!") =
      [(quizKey "Ants & Bees!",
        { name := pyStrip "Ants & Bees!", families := ["Formicidae", "Apidae"],
          created_at := "t2", family_count := (["Formicidae", "Apidae"] : List String).length })] :=
  ⟨by decide, by decide, by decide,
    (safe_filename_sanitizes_and_overwrites "Ants & Bees!" "Ants & Bees!"
        ["Formicidae", "Apidae"] ["Formicidae", "Apidae"] "t1" "t2" []
        (by decide) (by decide) (by decide) (by decide) rfl).2⟩

theorem genusOf_ok_eq {s g : String} (h : genusOf s = Except.ok g) : g = genusTok s := by
  unfold genusOf at h
  by_cases hs : s = "Unknown"
  · rw [if_neg (by simp [hs])] at h
    injection h with h
    subst hs
    rw [← h]
    decide
  · rw [if_pos hs] at h
    cases hsp : pySplitWs s with
    | nil => rw [hsp] at h; exact absurd h (by simp)
    | cons g2 t =>
      rw [hsp] at h
      injection h with h
      unfold genusTok
      rw [hsp, ← h]
      rfl

theorem classify_accept_spec {limit : Nat} {ss sg : List String} {n : Nat} {o : RawObs}
    {sp g : String} {info : ObservationInfo}
    (h : classify limit ss sg n o = CandAction.accept sp g info) :
    eligibleB o = true ∧ sp = obsSpeciesName o ∧ g = genusTok sp ∧
    ¬ sp ∈ ss ∧ ¬ (g ∈ sg ∧ n < limit) ∧
    info.scientific_name = sp ∧
    buildPhotos (o.photos.take 1) = Except.ok info.photos := by
  unfold classify at h
  cases ho : o.taxon with
  | none => rw [ho] at h; exact absurd h (by simp)
  | some taxon =>
    rw [ho] at h
    simp only at h
    by_cases hp : o.photos.isEmpty
    · rw [if_pos hp] at h; exact absurd h (by simp)
    · rw [if_neg hp] at h
      cases hg : genusOf (taxon.name.getD "Unknown") with
      | error e => rw [hg] at h; exact absurd h (by simp)
      | ok genus =>
        rw [hg] at h
        dsimp only at h
        by_cases h1 : taxon.name.getD "Unknown" ∈ ss
        · rw [if_pos h1] at h; exact absurd h (by simp)
        · rw [if_neg h1] at h
          by_cases h2 : genus ∈ sg ∧ n < limit
          · rw [if_pos h2] at h; exact absurd h (by simp)
          · rw [if_neg h2] at h
            cases hb : buildPhotos (o.photos.take 1) with
            | error e => rw [hb] at h; exact absurd h (by simp)
            | ok pis =>
              rw [hb] at h
              dsimp only at h
              injection h with e1 e2 e3
              have hspecies : obsSpeciesName o = taxon.name.getD "Unknown" := by
                unfold obsSpeciesName; rw [ho]
              have hge : genus = genusTok (taxon.name.getD "Unknown") := genusOf_ok_eq hg
              refine ⟨?_, ?_, ?_, ?_, ?_, ?_, ?_⟩
              · unfold eligibleB exceptOk
                rw [ho, hspecies, hg]
                simp [hp]
              · rw [← e1, hspecies]
              · rw [← e2, ← e1, hge]
              · rw [← e1]; exact h1
              · rw [← e2]; exact h2
              · rw [← e3, ← e1]
              · rw [← e3]

theorem classify_skip_spec {limit : Nat} {ss sg : List String} {n : Nat} {o : RawObs}
    (h : classify limit ss sg n o = CandAction.skip) :
    eligibleB o = false ∨ obsSpeciesName o ∈ ss ∨ (obsGenus o ∈ sg ∧ n < limit) := by
  unfold classify at h
  cases ho : o.taxon with
  | none =>
    left
    unfold eligibleB
    rw [ho]
    rfl
  | some taxon =>
    rw [ho] at h
    simp only at h
    have hspecies : obsSpeciesName o = taxon.name.getD "Unknown" := by
      unfold obsSpeciesName; rw [ho]
    by_cases hp : o.photos.isEmpty
    · left
      unfold eligibleB
      rw [ho]
      simp [hp]
    · rw [if_neg hp] at h
      cases hg : genusOf (taxon.name.getD "Unknown") with
      | error e => rw [hg] at h; exact absurd h (by simp)
      | ok genus =>
        rw [hg] at h
        dsimp only at h
        by_cases h1 : taxon.name.getD "Unknown" ∈ ss
        · right; left; rw [hspecies]; exact h1
        · rw [if_neg h1] at h
          by_cases h2 : genus ∈ sg ∧ n < limit
          · right; right
            have hge : genus = genusTok (taxon.name.getD "Unknown") := genusOf_ok_eq hg
            unfold obsGenus
            rw [hspecies, ← hge]
            exact h2
          · rw [if_neg h2] at h
            cases hb : buildPhotos (o.photos.take 1) with
            | error e => rw [hb] at h; exact absurd h (by simp)
            | ok pis => rw [hb] at h; exact absurd h (by simp)

theorem processBatch_length_le (limit : Nat) :
    ∀ (batch : List RawObs) (obs : List ObservationInfo) (ss sg : List String)
      (l : List ObservationInfo),
      processBatch limit batch obs ss sg = Except.ok l →
      l.length ≤ obs.length + 1 ∨ l.length ≤ limit := by
  intro batch
  induction batch with
  | nil =>
    intro obs ss sg l h
    simp only [processBatch] at h
    injection h with h
    subst h
    left
    omega
  | cons o rest ih =>
    intro obs ss sg l h
    simp only [processBatch] at h
    cases hc : classify limit ss sg obs.length o with
    | skip =>
      rw [hc] at h
      exact ih obs ss sg l h
    | fail e =>
      rw [hc] at h
      exact absurd h (by simp)
    | accept sp g info =>
      rw [hc] at h
      dsimp only at h
      by_cases hfull : limit ≤ (obs ++ [info]).length
      · rw [if_pos hfull] at h
        injection h with h
        subst h
        left
        simp
      · rw [if_neg hfull] at h
        have hrec := ih (obs ++ [info]) (sp :: ss) (g :: sg) l h
        right
        rcases hrec with hr | hr
        · rw [List.length_append] at hr hfull
          simp only [List.length_singleton] at hr hfull
          omega
        · exact hr

theorem processBatch_nodup (limit : Nat) :
    ∀ (batch : List RawObs) (obs : List ObservationInfo) (ss sg : List String)
      (l : List ObservationInfo),
      processBatch limit batch obs ss sg = Except.ok l →
      (obs.length < limit ∨ obs = []) →
      (∀ a ∈ obs, a.scientific_name ∈ ss) →
      (∀ s ∈ ss, genusTok s ∈ sg) →
      List.Pairwise (fun a b => a.scientific_name ≠ b.scientific_name) obs →
      List.Pairwise (fun a b => genusTok a.scientific_name ≠ genusTok b.scientific_name) obs →
      List.Pairwise (fun a b => a.scientific_name ≠ b.scientific_name) l ∧
      List.Pairwise (fun a b => genusTok a.scientific_name ≠ genusTok b.scientific_name) l := by
  intro batch
  induction batch with
  | nil =>
    intro obs ss sg l h _ _ _ h4 h5
    simp only [processBatch] at h
    injection h with h
    subst h
    exact ⟨h4, h5⟩
  | cons o rest ih =>
    intro obs ss sg l h h0 h1 h2 h4 h5
    simp only [processBatch] at h
    cases hc : classify limit ss sg obs.length o with
    | skip =>
      rw [hc] at h
      exact ih obs ss sg l h h0 h1 h2 h4 h5
    | fail e =>
      rw [hc] at h
      exact absurd h (by simp)
    | accept sp g info =>
      rw [hc] at h
      dsimp only at h
      obtain ⟨_, _, hgg, hnotss, hguard, hinfosp, _⟩ := classify_accept_spec hc
      by_cases hgsg : g ∈ sg
      · have hnotlt : ¬ obs.length < limit := fun hlt => hguard ⟨hgsg, hlt⟩
        have hobsnil : obs = [] := by
          rcases h0 with h0 | h0
          · exact absurd h0 hnotlt
          · exact h0
        subst hobsnil
        have hlim : limit = 0 := by
          simp only [List.length_nil] at hnotlt
          omega
        rw [if_pos (by simp [hlim])] at h
        injection h with h
        subst h
        simp
      · have hfreshspecies : ∀ a ∈ obs, a.scientific_name ≠ info.scientific_name := by
          intro a ha hcontra
          apply hnotss
          rw [← hinfosp, ← hcontra]
          exact h1 a ha
        have hfreshgenus : ∀ a ∈ obs,
            genusTok a.scientific_name ≠ genusTok info.scientific_name := by
          intro a ha hcontra
          apply hgsg
          rw [hgg, ← hinfosp, ← hcontra]
          exact h2 a.scientific_name (h1 a ha)
        have h4new : List.Pairwise (fun a b => a.scientific_name ≠ b.scientific_name)
            (obs ++ [info]) := by
          rw [List.pairwise_append]
          exact ⟨h4, List.pairwise_singleton _ _,
            fun a ha b hb => by rw [List.mem_singleton] at hb; subst hb; exact hfreshspecies a ha⟩
        have h5new : List.Pairwise
            (fun a b => genusTok a.scientific_name ≠ genusTok b.scientific_name)
            (obs ++ [info]) := by
          rw [List.pairwise_append]
          exact ⟨h5, List.pairwise_singleton _ _,
            fun a ha b hb => by rw [List.mem_singleton] at hb; subst hb; exact hfreshgenus a ha⟩
        by_cases hfull : limit ≤ (obs ++ [info]).length
        · rw [if_pos hfull] at h
          injection h with h
          subst h
          exact ⟨h4new, h5new⟩
        · rw [if_neg hfull] at h
          apply ih (obs ++ [info]) (sp :: ss) (g :: sg) l h
          · left
            omega
          · intro a ha
            rw [List.mem_append] at ha
            rcases ha with ha | ha
            · exact List.mem_cons_of_mem sp (h1 a ha)
            · rw [List.mem_singleton] at ha
              subst ha
              rw [hinfosp]
              exact List.mem_cons_self sp ss
          · intro s hs
            rw [List.mem_cons] at hs
            rcases hs with hs | hs
            · subst hs
              rw [← hgg]
              exact List.mem_cons_self g sg
            · exact List.mem_cons_of_mem g (h2 s hs)
          · exact h4new
          · exact h5new

theorem genSet_cons_eligible {o : RawObs} (rest : List RawObs)
    (he : eligibleB o = true) :
    genSet (o :: rest) = insert (obsGenus o) (genSet rest) := by
  unfold genSet
  rw [List.filter_cons, if_pos he]
  simp [List.toFinset_cons]

theorem genSet_cons_not_eligible {o : RawObs} (rest : List RawObs)
    (he : eligibleB o = false) :
    genSet (o :: rest) = genSet rest := by
  unfold genSet
  rw [List.filter_cons, if_neg (by simp [he])]

theorem processBatch_genus_supply (limit : Nat) :
    ∀ (batch : List RawObs) (obs : List ObservationInfo) (ss sg : List String)
      (l : List ObservationInfo),
      processBatch limit batch obs ss sg = Except.ok l →
      (∀ s ∈ ss, genusTok s ∈ sg) →
      min limit (obs.length + (genSet batch \ sg.toFinset).card) ≤ l.length := by
  intro batch
  induction batch with
  | nil =>
    intro obs ss sg l h _
    simp only [processBatch] at h
    injection h with h
    subst h
    have : genSet [] = (∅ : Finset String) := rfl
    rw [this]
    simp
  | cons o rest ih =>
    intro obs ss sg l h h2
    simp only [processBatch] at h
    cases hc : classify limit ss sg obs.length o with
    | skip =>
      rw [hc] at h
      have hcover : eligibleB o = false ∨ obsGenus o ∈ sg := by
        rcases classify_skip_spec hc with hs | hs | hs
        · exact Or.inl hs
        · exact Or.inr (h2 (obsSpeciesName o) hs)
        · exact Or.inr hs.1
      have hEq : genSet (o :: rest) \ sg.toFinset = genSet rest \ sg.toFinset := by
        rcases hcover with he | hg2
        · rw [genSet_cons_not_eligible rest he]
        · cases he : eligibleB o with
          | true =>
            rw [genSet_cons_eligible rest he,
              Finset.insert_sdiff_of_mem _ (List.mem_toFinset.mpr hg2)]
          | false => rw [genSet_cons_not_eligible rest he]
      rw [hEq]
      exact ih obs ss sg l h h2
    | fail e =>
      rw [hc] at h
      exact absurd h (by simp)
    | accept sp g info =>
      rw [hc] at h
      dsimp only at h
      obtain ⟨hel, hsp, hgg, _, _, _, _⟩ := classify_accept_spec hc
      have hobsg : obsGenus o = g := by
        unfold obsGenus
        rw [← hsp, ← hgg]
      by_cases hfull : limit ≤ (obs ++ [info]).length
      · rw [if_pos hfull] at h
        injection h with h
        subst h
        calc min limit (obs.length + (genSet (o :: rest) \ sg.toFinset).card)
            ≤ limit := Nat.min_le_left _ _
          _ ≤ (obs ++ [info]).length := hfull
      · rw [if_neg hfull] at h
        have hrec := ih (obs ++ [info]) (sp :: ss) (g :: sg) l h
          (by
            intro s hs
            rw [List.mem_cons] at hs
            rcases hs with hs | hs
            · subst hs
              rw [← hgg]
              exact List.mem_cons_self g sg
            · exact List.mem_cons_of_mem g (h2 s hs))
        have hsub : genSet (o :: rest) \ sg.toFinset ⊆
            insert g (genSet rest \ (g :: sg).toFinset) := by
          rw [genSet_cons_eligible rest hel, hobsg]
          intro x hx
          rw [Finset.mem_sdiff, Finset.mem_insert] at hx
          obtain ⟨hx1, hx2⟩ := hx
          by_cases hxg : x = g
          · rw [hxg]
            exact Finset.mem_insert_self g _
          · rcases hx1 with hx1 | hx1
            · exact absurd hx1 hxg
            · apply Finset.mem_insert_of_mem
              rw [Finset.mem_sdiff]
              refine ⟨hx1, ?_⟩
              rw [List.toFinset_cons, Finset.mem_insert]
              intro hcontra
              rcases hcontra with hcontra | hcontra
              · exact hxg hcontra
              · exact hx2 hcontra
        have hcard : (genSet (o :: rest) \ sg.toFinset).card ≤
            (genSet rest \ (g :: sg).toFinset).card + 1 :=
          le_trans (Finset.card_le_card hsub) (Finset.card_insert_le g _)
        calc min limit (obs.length + (genSet (o :: rest) \ sg.toFinset).card)
            ≤ min limit ((obs ++ [info]).length + (genSet rest \ (g :: sg).toFinset).card) := by
              apply min_le_min_left
              rw [List.length_append, List.length_singleton]
              omega
          _ ≤ l.length := hrec

/-- Counterexample to claim C2 as universally quantified over limit: at
limit 0 the loop still accepts one observation before the break check, so
the returned list is longer than limit. -/
theorem search_limit_zero_counterexample :
    Except.map List.length
        (search_hexapod_taxon_observations [mkObs 1 "Apis mellifera"] 0) =
      Except.ok 1 ∧ ¬ (1 ≤ 0) := by
  constructor
  · decide
  · omega

/-- Claim C2 as amended: whenever the loop returns an observation list, the
list carries pairwise-distinct scientific names, and for every positive
limit (limit 0 can yield one observation) its length is at most limit. -/
theorem search_length_le_and_species_distinct (batch : List RawObs) (limit : Nat)
    (l : List ObservationInfo)
    (hl : 1 ≤ limit)
    (h : search_hexapod_taxon_observations batch limit = Except.ok l) :
    l.length ≤ limit ∧
    List.Pairwise (fun a b => a.scientific_name ≠ b.scientific_name) l := by
  unfold search_hexapod_taxon_observations at h
  constructor
  · rcases processBatch_length_le limit batch [] [] [] l h with hr | hr
    · simp only [List.length_nil] at hr
      omega
    · exact hr
  · exact (processBatch_nodup limit batch [] [] [] l h (Or.inr rfl)
      (by simp) (by simp) List.Pairwise.nil List.Pairwise.nil).1

/-- Witness for the amended C2 at a concrete batch and limit 1. -/
theorem search_length_le_and_species_distinct_witness :
    (1 ≤ 1) ∧
    search_hexapod_taxon_observations [mkObs 1 "Apis mellifera", mkObs 2 "Apis cerana"] 1 =
      Except.ok [mkInfo 1 "Apis mellifera"] ∧
    ([mkInfo 1 "Apis mellifera"].length ≤ 1 ∧
      List.Pairwise (fun a b => a.scientific_name ≠ b.scientific_name)
        [mkInfo 1 "Apis mellifera"]) :=
  ⟨by decide, by decide,
    search_length_le_and_species_distinct
      [mkObs 1 "Apis mellifera", mkObs 2 "Apis cerana"] 1 [mkInfo 1 "Apis mellifera"]
      (by decide) (by decide)⟩

/-- Claim C10: the returned observation list always has pairwise-distinct
genus tokens; a candidate whose genus was already accepted is never
admitted, because the loop breaks as soon as the result reaches limit and
so the result is never full while candidates are still examined. -/
theorem search_genus_pairwise_distinct (batch : List RawObs) (limit : Nat)
    (l : List ObservationInfo)
    (h : search_hexapod_taxon_observations batch limit = Except.ok l) :
    List.Pairwise (fun a b => genusTok a.scientific_name ≠ genusTok b.scientific_name) l :=
  (processBatch_nodup limit batch [] [] [] l h (Or.inr rfl)
    (by simp) (by simp) List.Pairwise.nil List.Pairwise.nil).2

/-- Witness for C10: a batch whose second candidate repeats the first
genus yields a single-genus result even with room left, and the genus
tokens of the result are pairwise distinct. -/
theorem search_genus_pairwise_distinct_witness :
    search_hexapod_taxon_observations
        [mkObs 1 "Apis mellifera", mkObs 2 "Apis cerana", mkObs 3 "Bombus terrestris"] 3 =
      Except.ok [mkInfo 1 "Apis mellifera", mkInfo 3 "Bombus terrestris"] ∧
    List.Pairwise (fun a b => genusTok a.scientific_name ≠ genusTok b.scientific_name)
      [mkInfo 1 "Apis mellifera", mkInfo 3 "Bombus terrestris"] :=
  ⟨by decide,
    search_genus_pairwise_distinct
      [mkObs 1 "Apis mellifera", mkObs 2 "Apis cerana", mkObs 3 "Bombus terrestris"] 3
      [mkInfo 1 "Apis mellifera", mkInfo 3 "Bombus terrestris"] (by decide)⟩

/-- Claim C4: when the batch offers at least limit distinct genus tokens
among candidates with photos and resolvable taxon names, a returned
observation list contains at least limit distinct genus tokens. -/
theorem search_genus_diversity (batch : List RawObs) (limit : Nat)
    (l : List ObservationInfo)
    (hsupply : limit ≤ (genSet batch).card)
    (h : search_hexapod_taxon_observations batch limit = Except.ok l) :
    limit ≤ ((l.map (fun a => genusTok a.scientific_name)).toFinset).card := by
  unfold search_hexapod_taxon_observations at h
  have hnodup := (processBatch_nodup limit batch [] [] [] l h (Or.inr rfl)
    (by simp) (by simp) List.Pairwise.nil List.Pairwise.nil).2
  have hlen := processBatch_genus_supply limit batch [] [] [] l h (by simp)
  rw [List.toFinset_nil, Finset.sdiff_empty, List.length_nil, Nat.zero_add] at hlen
  have hmin : min limit (genSet batch).card = limit := Nat.min_eq_left hsupply
  rw [hmin] at hlen
  have hmapnodup : (l.map (fun a => genusTok a.scientific_name)).Nodup :=
    List.pairwise_map.mpr hnodup
  rw [List.toFinset_card_of_nodup hmapnodup, List.length_map]
  exact hlen

/-- Witness for C4: two distinct genera supplied, limit 2, two genera
returned. -/
theorem search_genus_diversity_witness :
    (2 ≤ (genSet [mkObs 1 "Apis mellifera", mkObs 2 "Bombus terrestris"]).card) ∧
    search_hexapod_taxon_observations [mkObs 1 "Apis mellifera", mkObs 2 "Bombus terrestris"] 2 =
      Except.ok [mkInfo 1 "Apis mellifera", mkInfo 2 "Bombus terrestris"] ∧
    2 ≤ (([mkInfo 1 "Apis mellifera", mkInfo 2 "Bombus terrestris"].map
        (fun a => genusTok a.scientific_name)).toFinset).card :=
  ⟨by decide, by decide,
    search_genus_diversity [mkObs 1 "Apis mellifera", mkObs 2 "Bombus terrestris"] 2
      [mkInfo 1 "Apis mellifera", mkInfo 2 "Bombus terrestris"] (by decide) (by decide)⟩

theorem stringMk_ne_empty {l : List Char} (h : l ≠ []) : String.mk l ≠ "" := by
  intro hc
  apply h
  exact congrArg String.data hc

theorem data_ne_nil_of_ne_empty {s : String} (h : s ≠ "") : s.data ≠ [] := by
  intro hc
  apply h
  cases s with
  | mk data =>
    have hd : data = [] := hc
    subst hd
    rfl

theorem replaceFuel_ne_nil {pat rep : List Char} (hrep : rep ≠ []) :
    ∀ (fuel : Nat) (s : List Char), s ≠ [] → replaceFuel pat rep fuel s ≠ [] := by
  intro fuel s hs
  cases s with
  | nil => exact absurd rfl hs
  | cons c cs =>
    cases fuel with
    | zero => simp [replaceFuel]
    | succ f =>
      by_cases hp : pat ≠ [] ∧ pat.isPrefixOf (c :: cs)
      · simp only [replaceFuel, if_pos hp]
        simp [hrep]
      · simp only [replaceFuel, if_neg hp]
        simp

theorem pyReplace_ne_empty {s : String} (pat : String) {rep : String}
    (hs : s ≠ "") (hrep : rep ≠ "") : pyReplace s pat rep ≠ "" := by
  unfold pyReplace replaceL
  exact stringMk_ne_empty
    (replaceFuel_ne_nil (data_ne_nil_of_ne_empty hrep) _ _ (data_ne_nil_of_ne_empty hs))

theorem truthyStr_some_ne {o : Option String} {t : String}
    (h : truthyStr o = some t) : t ≠ "" := by
  cases o with
  | none => exact absurd h (by simp [truthyStr])
  | some x =>
    unfold truthyStr at h
    dsimp only at h
    by_cases hx : x = ""
    · rw [if_pos hx] at h
      exact absurd h (by simp)
    · rw [if_neg hx] at h
      injection h with h
      rw [← h]
      exact hx

theorem fallbackChain_ok_ne {photo : Photo} (hbase : ¬ photo.url.getD "" = "") :
    ∀ (opts : List (Option String)) (s : String),
      fallbackChain opts photo = Except.ok s → ¬ s = "" := by
  intro opts
  induction opts with
  | nil =>
    intro s h
    unfold fallbackChain pyGetUrl at h
    cases hu : photo.url with
    | none => rw [hu] at h; exact absurd h (by simp)
    | some u =>
      rw [hu] at h
      injection h with h
      rw [hu] at hbase
      rw [← h]
      simpa using hbase
  | cons o rest ih =>
    intro s h
    unfold fallbackChain at h
    cases ht : truthyStr o with
    | some t =>
      rw [ht] at h
      injection h with h
      rw [← h]
      exact truthyStr_some_ne ht
    | none =>
      rw [ht] at h
      exact ih s h

theorem buildPhotoInfo_url_ne {photo : Photo} {pinfo : PhotoInfo}
    (hbase : ¬ photo.url.getD "" = "")
    (h : buildPhotoInfo photo = Except.ok pinfo) : ¬ pinfo.url = "" := by
  simp only [buildPhotoInfo] at h
  by_cases hsq : (containsS (photo.url.getD "") "square.jpeg" ||
      containsS (photo.url.getD "") "square.jpg") = true
  · rw [if_pos hsq] at h
    injection h with h
    rw [← h]
    exact pyReplace_ne_empty "square.jpg"
      (pyReplace_ne_empty "square.jpeg" hbase (by decide)) (by decide)
  · rw [if_neg hsq] at h
    cases hl : fallbackChain [photo.large_url, photo.medium_url, photo.original_url] photo with
    | error e => rw [hl] at h; exact absurd h (by simp)
    | ok large =>
      rw [hl] at h
      dsimp only at h
      cases hm : fallbackChain [photo.medium_url, photo.large_url] photo with
      | error e => rw [hm] at h; exact absurd h (by simp)
      | ok med =>
        rw [hm] at h
        dsimp only at h
        injection h with h
        rw [← h]
        exact fallbackChain_ok_ne hbase _ large hl

theorem buildPhotos_mem :
    ∀ (ps : List Photo) (pis : List PhotoInfo), buildPhotos ps = Except.ok pis →
      ∀ q ∈ pis, ∃ p ∈ ps, buildPhotoInfo p = Except.ok q := by
  intro ps
  induction ps with
  | nil =>
    intro pis h q hq
    simp only [buildPhotos] at h
    injection h with h
    subst h
    exact absurd hq (by simp)
  | cons p ps2 ih =>
    intro pis h q hq
    simp only [buildPhotos] at h
    cases h1 : buildPhotoInfo p with
    | error e => rw [h1] at h; exact absurd h (by simp)
    | ok q1 =>
      rw [h1] at h
      cases h2 : buildPhotos ps2 with
      | error e => rw [h2] at h; exact absurd h (by simp)
      | ok rest =>
        rw [h2] at h
        dsimp only at h
        injection h with h
        subst h
        rw [List.mem_cons] at hq
        rcases hq with hq | hq
        · subst hq
          exact ⟨p, List.mem_cons_self p ps2, h1⟩
        · obtain ⟨p2, hp2, he⟩ := ih rest h2 q hq
          exact ⟨p2, List.mem_cons_of_mem p hp2, he⟩

theorem processBatch_photo_urls (limit : Nat) :
    ∀ (batch : List RawObs) (obs : List ObservationInfo) (ss sg : List String)
      (l : List ObservationInfo),
      processBatch limit batch obs ss sg = Except.ok l →
      (∀ o ∈ batch, ∀ p ∈ o.photos, ¬ p.url.getD "" = "") →
      (∀ a ∈ obs, ∀ q ∈ a.photos, ¬ q.url = "") →
      ∀ a ∈ l, ∀ q ∈ a.photos, ¬ q.url = "" := by
  intro batch
  induction batch with
  | nil =>
    intro obs ss sg l h _ hobs
    simp only [processBatch] at h
    injection h with h
    subst h
    exact hobs
  | cons o rest ih =>
    intro obs ss sg l h hbatch hobs
    simp only [processBatch] at h
    have hbatchrest : ∀ o2 ∈ rest, ∀ p ∈ o2.photos, ¬ p.url.getD "" = "" :=
      fun o2 ho2 => hbatch o2 (List.mem_cons_of_mem o ho2)
    cases hc : classify limit ss sg obs.length o with
    | skip =>
      rw [hc] at h
      exact ih obs ss sg l h hbatchrest hobs
    | fail e =>
      rw [hc] at h
      exact absurd h (by simp)
    | accept sp g info =>
      rw [hc] at h
      dsimp only at h
      obtain ⟨_, _, _, _, _, _, hbp⟩ := classify_accept_spec hc
      have hinfo : ∀ q ∈ info.photos, ¬ q.url = "" := by
        intro q hq
        obtain ⟨p, hp, he⟩ := buildPhotos_mem (o.photos.take 1) info.photos hbp q hq
        have hpmem : p ∈ o.photos := (List.take_sublist 1 o.photos).mem hp
        exact buildPhotoInfo_url_ne (hbatch o (List.mem_cons_self o rest) p hpmem) he
      have hobs2 : ∀ a ∈ obs ++ [info], ∀ q ∈ a.photos, ¬ q.url = "" := by
        intro a ha
        rw [List.mem_append] at ha
        rcases ha with ha | ha
        · exact hobs a ha
        · rw [List.mem_singleton] at ha
          subst ha
          exact hinfo
      by_cases hfull : limit ≤ (obs ++ [info]).length
      · rw [if_pos hfull] at h
        injection h with h
        subst h
        exact hobs2
      · rw [if_neg hfull] at h
        exact ih (obs ++ [info]) (sp :: ss) (g :: sg) l h hbatchrest hobs2

/-- Counterexample to claim C7 as stated over every fetched batch: a photo
whose url field is present but empty flows through the fallback chain
unchanged, so a successful pick can return an empty image_url. -/
theorem get_quiz_question_empty_url_counterexample :
    Except.map QuizQuestion.image_url
        (get_quiz_question ["Formicidae", "Apidae", "Vespidae"] ⟨0, by decide⟩
          [{ id := 1,
             photos := [{ url := some "", large_url := none, medium_url := none,
                          original_url := none, attribution := none }],
             taxon := some { name := some "Apis mellifera", preferred_common_name := none } }]) =
      Except.ok "" := by
  decide

/-- Claim C7 as amended: a successful pick always returns a
correct_answer belonging to the input list, and the image_url is
non-empty provided every photo url in the fetched batch is non-empty. -/
theorem get_quiz_question_member_and_url (families : List String)
    (choice : Fin families.length) (batch : List RawObs) (q : QuizQuestion)
    (hurl : ∀ o ∈ batch, ∀ p ∈ o.photos, ¬ p.url.getD "" = "")
    (h : get_quiz_question families choice batch = Except.ok q) :
    q.correct_answer ∈ families ∧ ¬ q.image_url = "" := by
  unfold get_quiz_question at h
  cases hs : search_hexapod_taxon_observations batch 1 with
  | error e =>
    rw [hs] at h
    exact absurd h (by simp)
  | ok list =>
    rw [hs] at h
    cases list with
    | nil => exact absurd h (by simp)
    | cons observation tail =>
      dsimp only at h
      cases hp : observation.photos with
      | nil =>
        rw [hp] at h
        exact absurd h (by simp)
      | cons p ptail =>
        rw [hp] at h
        dsimp only at h
        injection h with h
        have hurls := processBatch_photo_urls 1 batch [] [] [] (observation :: tail)
          hs hurl (by simp)
        constructor
        · rw [← h]
          exact List.get_mem families choice.1 choice.2
        · rw [← h]
          exact hurls observation (List.mem_cons_self observation tail) p
            (by rw [hp]; exact List.mem_cons_self p ptail)

/-- Witness for the amended C7 at a concrete batch with a non-empty photo
url. -/
theorem get_quiz_question_member_and_url_witness :
    (∀ o ∈ [mkObs 1 "Apis mellifera"], ∀ p ∈ o.photos, ¬ p.url.getD "" = "") ∧
    get_quiz_question ["Formicidae"] ⟨0, by decide⟩ [mkObs 1 "Apis mellifera"] =
      Except.ok
        { correct_answer := "Formicidae", image_url := "u",
          scientific_name := "Apis mellifera",
          observation_url := "https://www.inaturalist.org/observations/1" } ∧
    (QuizQuestion.correct_answer
        { correct_answer := "Formicidae", image_url := "u",
          scientific_name := "Apis mellifera",
          observation_url := "https://www.inaturalist.org/observations/1" } ∈
        (["Formicidae"] : List String) ∧
      ¬ QuizQuestion.image_url
        { correct_answer := "Formicidae", image_url := "u",
          scientific_name := "Apis mellifera",
          observation_url := "https://www.inaturalist.org/observations/1" } = "") :=
  ⟨by decide, by decide,
    get_quiz_question_member_and_url ["Formicidae"] ⟨0, by decide⟩ [mkObs 1 "Apis mellifera"]
      { correct_answer := "Formicidae", image_url := "u",
        scientific_name := "Apis mellifera",
        observation_url := "https://www.inaturalist.org/observations/1" }
      (by decide) (by decide)⟩

end HexapodSearcher
